import Mathlib

/-!
Verification development for the tarot tabletop application.

The definitions below are a shallow embedding of the TypeScript sources:
  * `src/src/types.ts` — the data model,
  * `src/src/services/cardService.ts` — deck construction, shuffling, asset
    resolution,
  * `src/unnamed/part_000` (first `App` component, the unified mouse/touch
    variant with reserve/filter support) — viewport state, gesture handlers,
  * `src/App.tsx` — the mouse-only variant (used for the cross-variant
    comparison theorems only).

Conventions of the embedding:
  * JavaScript numbers are modelled as exact rationals (`ℚ`); all the
    quantities the theorems below rely on stay exact in the source as well
    (the claims about coordinates are stated "exact over rational
    arithmetic").
  * `Math.random`-driven choices (Fisher–Yates swap indices, generated
    instance ids) are supplied as explicit oracle arguments.
  * `Math.atan2(dy, dx) * 180 / Math.PI` is irrational-valued, so the
    handlers take the degree-valued angle function as an oracle argument
    `atan2deg : ℚ → ℚ → ℚ`; where a theorem depends on its behaviour, the
    mathematical range of `atan2` in degrees, `(-180, 180]`, is assumed as a
    hypothesis.
  * Comparisons of the form `Math.sqrt e < c` with `e ≥ 0`, `c > 0` are
    embedded as the equivalent `e < c * c` to stay inside `ℚ`.
  * React `useState` pieces of the component are gathered into one record
    `AppState`; each handler is a function from old state (plus event data
    and oracles) to new state, mirroring the fact that every handler runs to
    completion on a consistent snapshot.
-/

namespace TarotBoard

/-- `ArcanaType` from `src/src/types.ts`. -/
inductive ArcanaType where
  | major
  | minor
deriving DecidableEq, Repr

/-- `Suit` from `src/src/types.ts`. -/
inductive Suit where
  | batons
  | coupes
  | epees
  | deniers
  | none
deriving DecidableEq, Repr

/-- String value of each `Suit` member (the enum values in `types.ts`). -/
def Suit.str : Suit → String
  | .batons => "Bâtons"
  | .coupes => "Coupes"
  | .epees => "Épées"
  | .deniers => "Deniers"
  | .none => "None"

/-- `DeckStyle` from `src/src/types.ts`: `'noblet' | 'cbd'`. -/
inductive DeckStyle where
  | noblet
  | cbd
deriving DecidableEq, Repr

/-- The string key of a `DeckStyle` (the TypeScript value itself). -/
def DeckStyle.key : DeckStyle → String
  | .noblet => "noblet"
  | .cbd => "cbd"

/-- `FilterType` from `src/unnamed/part_000`: `'ALL' | 'MAJOR' | 'MINOR'`. -/
inductive FilterType where
  | all
  | major
  | minor
deriving DecidableEq, Repr

/-- Which face of a card an asset URL is requested for
(the `'front' | 'back'` argument of `getCardAssetUrl`). -/
inductive Face where
  | front
  | back
deriving DecidableEq, Repr

/-- `TarotCardData` from `src/src/types.ts`. -/
structure TarotCardData where
  id : String
  name : String
  number : ℤ
  arcana : ArcanaType
  suit : Suit
  fileName : String
  imageUrl : String
  backImageUrl : String
deriving DecidableEq, Repr

/-- `PlacedCard` from `src/src/types.ts`, extended with the `rotation` field
that the unified variant in `src/unnamed/part_000` stores on every placed
card (`rotation: 0` at placement, mutated by the rotation gesture). -/
structure PlacedCard extends TarotCardData where
  instanceId : String
  x : ℚ
  y : ℚ
  isFlipped : Bool
  zIndex : ℤ
  rotation : ℚ
deriving DecidableEq, Repr

/-- A screen- or world-space point (JS `{x, y}` object). -/
structure Point where
  x : ℚ
  y : ℚ
deriving DecidableEq, Repr

/-- The pieces of the browser `window` the handlers read
(`window.innerWidth`, `window.innerHeight`). -/
structure Env where
  innerWidth : ℚ
  innerHeight : ℚ
deriving DecidableEq, Repr

/-- Character-level normalisation used by `normalizeToFilename` in
`cardService.ts`: JavaScript lowercases (including the accented capitals
occurring in the card names), strips the NFD combining accents, and turns
spaces and apostrophes into underscores.  The mapping below implements that
pipeline for the full character repertoire of the card names. -/
def normChar (c : Char) : Char :=
  if c = 'É' then 'e'
  else if c = 'é' then 'e'
  else if c = 'È' then 'e'
  else if c = 'è' then 'e'
  else if c = 'Ê' then 'e'
  else if c = 'ê' then 'e'
  else if c = 'Â' then 'a'
  else if c = 'â' then 'a'
  else if c = '\x27' then '_'
  else if c = ' ' then '_'
  else c.toLower

/-- `normalizeToFilename` from `cardService.ts`. -/
def normalizeToFilename (s : String) : String :=
  (s.data.map normChar).asString

/-- `getDeckRatio` from `cardService.ts` (width/height proportion of a card;
named without the source's `Ratio` suffix). -/
def getDeckProportion : DeckStyle → ℚ
  | .noblet => 354 / 566
  | .cbd => 300 / 525

/-- The `USE_LOCAL_IMAGES` configuration constant of `cardService.ts`. -/
def useLocalImages : Bool := true

/-- The `LOCAL_BASE_URL` constant of `cardService.ts`. -/
def localBaseUrl : String := "/cards"

/-- Character-level model of `encodeURIComponent`, restricted to the
character repertoire of the card display names (letters, digits, spaces,
apostrophes and the accented vowels); unreserved characters map to
themselves, the space to `%20`, accented vowels to their UTF-8 percent
encodings.  Only used by the placeholder branch of `getCardAssetUrl`, which
is dead code while `useLocalImages = true`. -/
def encodeUriComponentChar (c : Char) : String :=
  if c = ' ' then "%20"
  else if c = 'é' then "%C3%A9"
  else if c = 'É' then "%C3%89"
  else if c = 'è' then "%C3%A8"
  else if c = 'È' then "%C3%88"
  else if c = 'ê' then "%C3%AA"
  else if c = 'â' then "%C3%A2"
  else if c = 'Â' then "%C3%82"
  else String.singleton c

/-- Model of `encodeURIComponent` on full strings. -/
def encodeUriComponent (s : String) : String :=
  String.join (s.data.map encodeUriComponentChar)

/-- JavaScript `String.prototype.includes`. -/
def jsIncludes (s sub : String) : Bool :=
  decide (sub.data <:+: s.data)

/-- The placeholder-URL fallback branch of `getCardAssetUrl` in
`cardService.ts` (reachable only when `useLocalImages` is `false`, which it
is not in the shipped configuration). -/
def placeholdUrl (displayName : String) (deckStyle : DeckStyle) : String :=
  let encodedName := encodeUriComponent displayName
  let deckLabel := match deckStyle with
    | .noblet => "JN"
    | .cbd => "CBD"
  let colors : String × String :=
    match deckStyle with
    | .noblet =>
      let p : String × String := ("f5f5dc", "333333")
      let p := if jsIncludes displayName "Bâtons" then ("2d5a27", "f5f5dc") else p
      let p := if jsIncludes displayName "Coupes" then ("a32cc4", "ffffff") else p
      let p := if jsIncludes displayName "Épées" then ("3b82f6", "ffffff") else p
      let p := if jsIncludes displayName "Deniers" then ("d97706", "ffffff") else p
      let p := if jsIncludes displayName "Major" then ("0f172a", "ffd700") else p
      p
    | .cbd =>
      let p : String × String := ("f5f5dc", "333333")
      let p := if jsIncludes displayName "Bâtons" then ("4ade80", "064e3b") else p
      let p := if jsIncludes displayName "Coupes" then ("f472b6", "831843") else p
      let p := if jsIncludes displayName "Épées" then ("60a5fa", "1e3a8a") else p
      let p := if jsIncludes displayName "Deniers" then ("facc15", "713f12") else p
      let p := if jsIncludes displayName "Major" then ("475569", "f8fafc") else p
      p
  "https://placehold.co/300x520/" ++ colors.1 ++ "/" ++ colors.2 ++
    ".png?text=" ++ encodedName ++ "+(" ++ deckLabel ++ ")&font=playfair-display"

/-- `getCardAssetUrl` from `cardService.ts`. -/
def getCardAssetUrl (fileName displayName : String) (face : Face)
    (deckStyle : DeckStyle) : String :=
  match face with
  | .back =>
    match deckStyle with
    | .noblet => "https://www.transparenttextures.com/patterns/black-scales.png"
    | .cbd => "https://www.transparenttextures.com/patterns/wood-pattern.png"
  | .front =>
    if useLocalImages then
      localBaseUrl ++ "/" ++ deckStyle.key ++ "/" ++ fileName ++ ".jpg"
    else
      placeholdUrl displayName deckStyle

/-- `updateCardAssets` from `cardService.ts` at type `TarotCardData`. -/
def updateCardAssets (card : TarotCardData) (style : DeckStyle) : TarotCardData :=
  { card with
    imageUrl := getCardAssetUrl card.fileName card.name .front style
    backImageUrl := getCardAssetUrl "back" "Back" .back style }

/-- `updateCardAssets` from `cardService.ts` at type `PlacedCard` (the source
function is generic `<T extends TarotCardData>`; the object spread keeps the
instance fields and overwrites the two URL fields). -/
def updatePlacedCardAssets (card : PlacedCard) (style : DeckStyle) : PlacedCard :=
  { card with toTarotCardData := updateCardAssets card.toTarotCardData style }

/-- `majorArcanaData` from `cardService.ts`. -/
def majorArcanaData : List (ℤ × String) :=
  [(0, "Le Mat"), (1, "Le Bateleur"), (2, "La Papesse"),
   (3, "L\x27Impératrice"), (4, "L\x27Empereur"), (5, "Le Pape"),
   (6, "L\x27Amoureux"), (7, "Le Chariot"), (8, "La Justice"),
   (9, "L\x27Hermite"), (10, "La Roue de Fortune"), (11, "La Force"),
   (12, "Le Pendu"), (13, "La Mort"), (14, "Tempérance"),
   (15, "Le Diable"), (16, "La Maison Dieu"), (17, "L\x27Étoile"),
   (18, "La Lune"), (19, "Le Soleil"), (20, "Le Jugement"),
   (21, "Le Monde")]

/-- The `suits` list from `cardService.ts`. -/
def suitsList : List Suit := [.batons, .coupes, .epees, .deniers]

/-- The French display name of minor-arcana card `i` (1–14) of a suit, as
computed in the minor-arcana loop of `createDeck`. -/
def minorName (suit : Suit) (i : ℕ) : String :=
  if i = 1 then "As de " ++ suit.str
  else if i ≤ 10 then toString i ++ " de " ++ suit.str
  else if i = 11 then "Valet de " ++ suit.str
  else if i = 12 then "Cavalier de " ++ suit.str
  else if i = 13 then "Royne de " ++ suit.str
  else "Roy de " ++ suit.str

/-- `createDeck` from `cardService.ts`: the 22 major arcana followed by the
4 × 14 minor arcana. -/
def createDeck (deckStyle : DeckStyle) : List TarotCardData :=
  let majors := majorArcanaData.map (fun d =>
    let fileName := normalizeToFilename d.2
    { id := "major_" ++ toString d.1
      name := d.2
      number := d.1
      arcana := .major
      suit := .none
      fileName := fileName
      imageUrl := getCardAssetUrl fileName d.2 .front deckStyle
      backImageUrl := getCardAssetUrl "back" "Back" .back deckStyle })
  let minors := suitsList.flatMap (fun suit =>
    (List.range 14).map (fun k =>
      let i := k + 1
      let name := minorName suit i
      let fileName := normalizeToFilename name
      { id := normalizeToFilename suit.str ++ "_" ++ toString i
        name := name
        number := (i : ℤ)
        arcana := .minor
        suit := suit
        fileName := fileName
        imageUrl := getCardAssetUrl fileName name .front deckStyle
        backImageUrl := getCardAssetUrl "back" "Back" .back deckStyle }))
  majors ++ minors

/-- Swap the elements at positions `i` and `j` of a list (identity when
either index is out of range) — the `[newArray[i], newArray[j]] =
[newArray[j], newArray[i]]` step of `shuffleDeck`. -/
def listSwap (l : List α) (i j : ℕ) : List α :=
  match l.get? i, l.get? j with
  | some a, some b => (l.set i b).set j a
  | _, _ => l

/-- The descending Fisher–Yates loop of `shuffleDeck` in `cardService.ts`:
`i` runs from `l.length - 1` down to `1`, swapping position `i` with a
random position `j ∈ [0, i]`.  `Math.floor(Math.random() * (i + 1))` is
modelled by the oracle `rand` reduced `mod (i + 1)`. -/
def shuffleAux (rand : ℕ → ℕ) (l : List α) : ℕ → List α
  | 0 => l
  | i + 1 => shuffleAux rand (listSwap l (i + 1) (rand (i + 1) % (i + 2))) i

/-- `shuffleDeck` from `cardService.ts` with the random choices supplied as
an oracle. -/
def shuffleDeck (rand : ℕ → ℕ) (l : List α) : List α :=
  shuffleAux rand l (l.length - 1)

/-- The `'DECK' | 'TABLE'` drag-source tag of `src/unnamed/part_000`. -/
inductive DragSource where
  | deck
  | table
deriving DecidableEq, Repr

/-- All the `useState` pieces and mutable refs of the unified `App`
component in `src/unnamed/part_000`, gathered into one record. -/
structure AppState where
  deck : List TarotCardData
  reserveCards : List TarotCardData
  placedCards : List PlacedCard
  zIndexCounter : ℤ
  currentDeckStyle : DeckStyle
  activeFilter : FilterType
  isReturningCards : Bool
  isShufflingDeck : Bool
  pan : Point
  zoom : ℚ
  isPanning : Bool
  isSpacePressed : Bool
  lastTouchTime : ℚ
  isDragging : Bool
  dragSource : Option DragSource
  draggedCardId : Option String
  isRotating : Bool
  rotatingCardId : Option String
  rotationCenter : Point
  lastMouseAngle : ℚ
  dragOffset : Point
  ghostPosition : Point
  dragStartPos : Point
  panStart : Point
  lastPinchDist : Option ℚ
deriving DecidableEq, Repr

/-- Width and height of a card as returned by `getCurrentCardDimensions`. -/
structure CardDims where
  width : ℚ
  height : ℚ
deriving DecidableEq, Repr

/-- `getCurrentCardDimensions` from `src/unnamed/part_000` (depends on
`window.innerWidth` and the current deck style). -/
def getCurrentCardDimensions (env : Env) (style : DeckStyle) : CardDims :=
  let width : ℚ := if 640 ≤ env.innerWidth then 176 else 128
  { width := width, height := width / getDeckProportion style }

/-- `screenToWorld` from `src/unnamed/part_000`. -/
def screenToWorld (pan : Point) (zoom : ℚ) (screenX screenY : ℚ) : Point :=
  { x := (screenX - pan.x) / zoom, y := (screenY - pan.y) / zoom }

/-- The inverse transform.  The source computes it inline
(`handleStartRotate`: `card.x * zoom + pan.x`, the world-layer CSS
`translate(pan) scale(zoom)`); the spec names it `worldToScreen`. -/
def worldToScreen (pan : Point) (zoom : ℚ) (wx wy : ℚ) : Point :=
  { x := wx * zoom + pan.x, y := wy * zoom + pan.y }

/-- `calculateAngle` from `src/unnamed/part_000`, with
`Math.atan2(dy, dx) * (180 / Math.PI)` supplied as the oracle
`atan2deg : dy → dx → degrees`. -/
def calculateAngle (atan2deg : ℚ → ℚ → ℚ) (centerX centerY mouseX mouseY : ℚ) : ℚ :=
  atan2deg (mouseY - centerY) (mouseX - centerX)

/-- The shortest-path wrap-around normalisation applied to a rotation delta
in `handleMove` of `src/unnamed/part_000`:
`if (deltaAngle > 180) deltaAngle -= 360; if (deltaAngle < -180) deltaAngle += 360;`. -/
def normalizeDeltaAngle (d : ℚ) : ℚ :=
  let d := if 180 < d then d - 360 else d
  if d < -180 then d + 360 else d

/-- `resetGame` from `src/unnamed/part_000` (shuffle randomness supplied as
an oracle, `window` dimensions as `env`). -/
def resetGame (env : Env) (rand : ℕ → ℕ) (style : DeckStyle) (s : AppState) : AppState :=
  let isMobile := env.innerWidth < 640
  { s with
    deck := shuffleDeck rand (createDeck style)
    reserveCards := []
    placedCards := []
    zIndexCounter := 10
    activeFilter := .all
    pan := { x := env.innerWidth / 2 - (if isMobile then 0 else 100),
             y := env.innerHeight / 2 - (if isMobile then 100 else 200) }
    zoom := if isMobile then 7/10 else 1
    isReturningCards := false
    isShufflingDeck := false }

/-- The `useState` initial values of the component, before the mount effect
runs `resetGame('noblet')`. -/
def initialAppState : AppState :=
  { deck := []
    reserveCards := []
    placedCards := []
    zIndexCounter := 10
    currentDeckStyle := .noblet
    activeFilter := .all
    isReturningCards := false
    isShufflingDeck := false
    pan := { x := 0, y := 0 }
    zoom := 1
    isPanning := false
    isSpacePressed := false
    lastTouchTime := 0
    isDragging := false
    dragSource := Option.none
    draggedCardId := Option.none
    isRotating := false
    rotatingCardId := Option.none
    rotationCenter := { x := 0, y := 0 }
    lastMouseAngle := 0
    dragOffset := { x := 0, y := 0 }
    ghostPosition := { x := 0, y := 0 }
    dragStartPos := { x := 0, y := 0 }
    panStart := { x := 0, y := 0 }
    lastPinchDist := Option.none }

/-- The state right after mount: `useState` defaults followed by the
`useEffect` call `resetGame('noblet')`. -/
def initApp (env : Env) (rand : ℕ → ℕ) : AppState :=
  resetGame env rand .noblet initialAppState

/-- `handleStyleChange` from `src/unnamed/part_000`: set the style and remap
the asset URLs of every card in the pile, the reserve and the table. -/
def handleStyleChange (style : DeckStyle) (s : AppState) : AppState :=
  { s with
    currentDeckStyle := style
    deck := s.deck.map (fun card => updateCardAssets card style)
    reserveCards := s.reserveCards.map (fun card => updateCardAssets card style)
    placedCards := s.placedCards.map (fun card => updatePlacedCardAssets card style) }

/-- `handleFilterChange` from `src/unnamed/part_000`. -/
def handleFilterChange (t : FilterType) (s : AppState) : AppState :=
  if s.isReturningCards || s.isShufflingDeck then s
  else
    let allAvailable := s.deck ++ s.reserveCards
    let split : List TarotCardData × List TarotCardData :=
      match t with
      | .all => (allAvailable, [])
      | .major => (allAvailable.filter (fun c => decide (c.arcana = ArcanaType.major)),
                   allAvailable.filter (fun c => !decide (c.arcana = ArcanaType.major)))
      | .minor => (allAvailable.filter (fun c => decide (c.arcana = ArcanaType.minor)),
                   allAvailable.filter (fun c => !decide (c.arcana = ArcanaType.minor)))
    { s with deck := split.1, reserveCards := split.2, activeFilter := t }

/-- The synchronous first phase of `handleShuffleAndReset` (non-empty table
case): every placed card is sent to the deck anchor, face down, rotation
reset, brought to the animation z-layer, and `isReturningCards` is raised.
This is the state visible during the 500 ms fly-back delay. -/
def shuffleFlyBack (env : Env) (s : AppState) : AppState :=
  let cardDims := getCurrentCardDimensions env s.currentDeckStyle
  let deckScreenX := 32 + cardDims.width / 2
  let deckScreenY := env.innerHeight - 32 - cardDims.height / 2
  let targetWorld := screenToWorld s.pan s.zoom deckScreenX deckScreenY
  let targetX := targetWorld.x - cardDims.width / 2
  let targetY := targetWorld.y - cardDims.height / 2
  { s with
    isReturningCards := true
    placedCards := s.placedCards.map (fun c =>
      { c with x := targetX, y := targetY, rotation := 0, isFlipped := false,
               zIndex := 9999 }) }

/-- `handleShuffleAndReset` from `src/unnamed/part_000`, run to completion
(both `setTimeout` callbacks included, so the cosmetic `isShufflingDeck`
flag has been lowered again).  With an empty table it shuffles pile and
reserve in place; otherwise it plays the fly-back phase, then collects
pile ∪ reserve ∪ table, shuffles, and repartitions by the active filter.
The collection step uses the pile/reserve/table captured when the handler
fired, exactly as the JavaScript closure does. -/
def handleShuffleAndReset (env : Env) (rand₁ rand₂ : ℕ → ℕ) (s : AppState) : AppState :=
  if s.placedCards.length = 0 then
    { s with
      deck := shuffleDeck rand₁ s.deck
      reserveCards := shuffleDeck rand₂ s.reserveCards
      isShufflingDeck := false }
  else
    let mid := shuffleFlyBack env s
    let allCardsOnTable := s.placedCards.map (fun p => p.toTarotCardData)
    let fullCollection := s.deck ++ s.reserveCards ++ allCardsOnTable
    let shuffledCollection := shuffleDeck rand₁ fullCollection
    let split : List TarotCardData × List TarotCardData :=
      match s.activeFilter with
      | .all => (shuffledCollection, [])
      | .major => (shuffledCollection.filter (fun c => decide (c.arcana = ArcanaType.major)),
                   shuffledCollection.filter (fun c => !decide (c.arcana = ArcanaType.major)))
      | .minor => (shuffledCollection.filter (fun c => decide (c.arcana = ArcanaType.minor)),
                   shuffledCollection.filter (fun c => !decide (c.arcana = ArcanaType.minor)))
    { mid with
      placedCards := []
      deck := split.1
      reserveCards := split.2
      isReturningCards := false
      isShufflingDeck := false }

/-- `handleWheel` from `src/unnamed/part_000` (the cursor-anchored wheel
zoom; `0.001` and the `0.0001` dead-band written as exact rationals). -/
def handleWheel (cx cy deltaY : ℚ) (s : AppState) : AppState :=
  let currentZoom := s.zoom
  let currentPan := s.pan
  let mouseWorldX := (cx - currentPan.x) / currentZoom
  let mouseWorldY := (cy - currentPan.y) / currentZoom
  let delta := -deltaY
  let newZoom := min (max (1/10) (currentZoom + delta * (1/1000) * currentZoom)) 5
  if |newZoom - currentZoom| < 1/10000 then s
  else
    { s with
      zoom := newZoom
      pan := { x := cx - mouseWorldX * newZoom, y := cy - mouseWorldY * newZoom } }

/-- A normalised pointer event: a touch (first finger position) or a mouse
event with its button, as produced by `getClientPos` and the `'touches' in
e` tests of the unified handlers. -/
inductive PointerEv where
  | touch (pos : Point)
  | mouse (pos : Point) (button : ℤ)
deriving DecidableEq, Repr

/-- Common tail of `handleStartDeck` once its guards have passed. -/
def startDeckCore (env : Env) (pos : Point) (s : AppState) : AppState :=
  let dims := getCurrentCardDimensions env s.currentDeckStyle
  { s with
    isDragging := true
    dragSource := some DragSource.deck
    ghostPosition := pos
    dragStartPos := pos
    dragOffset := { x := dims.width / 2, y := dims.height / 2 } }

/-- `handleStartDeck` from `src/unnamed/part_000` (`now` is `Date.now()`;
the 500 ms ghost-mouse guard compares it with the last touch time). -/
def handleStartDeck (env : Env) (now : ℚ) (p : PointerEv) (s : AppState) : AppState :=
  if s.deck.length = 0 || s.isShufflingDeck || s.isReturningCards then s
  else
    match p with
    | .touch pos => startDeckCore env pos { s with lastTouchTime := now }
    | .mouse pos b =>
      if now - s.lastTouchTime < 500 then s
      else if b ≠ 0 then s
      else startDeckCore env pos s

/-- Common tail of `handleStartTableCard` once its guards have passed. -/
def startTableCore (pos : Point) (card : PlacedCard) (s : AppState) : AppState :=
  let mouseWorld := screenToWorld s.pan s.zoom pos.x pos.y
  let newZ := s.zIndexCounter + 1
  { s with
    isDragging := true
    dragSource := some DragSource.table
    draggedCardId := some card.instanceId
    dragStartPos := pos
    dragOffset := { x := mouseWorld.x - card.x, y := mouseWorld.y - card.y }
    zIndexCounter := newZ
    placedCards := s.placedCards.map (fun c =>
      if c.instanceId = card.instanceId then { c with zIndex := newZ } else c) }

/-- `handleStartTableCard` from `src/unnamed/part_000`.  For a touch the
last-touch time is recorded before the space/animation guard, mirroring the
ref mutation happening before the early return in the source. -/
def handleStartTableCard (now : ℚ) (p : PointerEv) (card : PlacedCard)
    (s : AppState) : AppState :=
  match p with
  | .touch pos =>
    let s := { s with lastTouchTime := now }
    if s.isSpacePressed || s.isReturningCards then s
    else startTableCore pos card s
  | .mouse pos b =>
    if now - s.lastTouchTime < 500 then s
    else if b ≠ 0 then s
    else if s.isSpacePressed || s.isReturningCards then s
    else startTableCore pos card s

/-- Common tail of `handleStartRotate` once its guards have passed. -/
def rotateCore (env : Env) (atan2deg : ℚ → ℚ → ℚ) (pos : Point)
    (card : PlacedCard) (s : AppState) : AppState :=
  let newZ := s.zIndexCounter + 1
  let cardDims := getCurrentCardDimensions env s.currentDeckStyle
  let screenX := card.x * s.zoom + s.pan.x
  let screenY := card.y * s.zoom + s.pan.y
  let centerX := screenX + cardDims.width * s.zoom / 2
  let centerY := screenY + cardDims.height * s.zoom / 2
  { s with
    zIndexCounter := newZ
    placedCards := s.placedCards.map (fun c =>
      if c.instanceId = card.instanceId then { c with zIndex := newZ } else c)
    isRotating := true
    rotatingCardId := some card.instanceId
    rotationCenter := { x := centerX, y := centerY }
    lastMouseAngle := calculateAngle atan2deg centerX centerY pos.x pos.y }

/-- `handleStartRotate` from `src/unnamed/part_000`.  Note the source has no
button filter on the mouse path, only the ghost-mouse time guard. -/
def handleStartRotate (env : Env) (atan2deg : ℚ → ℚ → ℚ) (now : ℚ)
    (p : PointerEv) (card : PlacedCard) (s : AppState) : AppState :=
  match p with
  | .touch pos => rotateCore env atan2deg pos card { s with lastTouchTime := now }
  | .mouse pos _ =>
    if now - s.lastTouchTime < 500 then s
    else rotateCore env atan2deg pos card s

/-- `handleStartBackground` from `src/unnamed/part_000`: a touch, the space
modifier, or a left mouse button starts panning. -/
def handleStartBackground (now : ℚ) (p : PointerEv) (s : AppState) : AppState :=
  match p with
  | .touch pos =>
    let s := { s with lastTouchTime := now }
    { s with isPanning := true, panStart := pos }
  | .mouse pos b =>
    if now - s.lastTouchTime < 500 then s
    else if s.isSpacePressed || b = 0 then { s with isPanning := true, panStart := pos }
    else s

/-- A normalised move event.  `touchTwo` carries the inter-finger distance
computed by `getPinchDistance` (`Math.sqrt(dx² + dy²)`, always defined for
two touches); only that scalar is consumed downstream, so it is supplied as
the event attribute. -/
inductive MoveEv where
  | mouse (pos : Point)
  | touchOne (pos : Point)
  | touchTwo (dist : ℚ)
deriving DecidableEq, Repr

/-- The single-pointer part of `handleMove` (everything after the pinch
branch): panning, then rotation, then dragging. -/
def moveCore (atan2deg : ℚ → ℚ → ℚ) (pos : Point) (s : AppState) : AppState :=
  if s.isPanning then
    { s with
      pan := { x := s.pan.x + (pos.x - s.panStart.x),
               y := s.pan.y + (pos.y - s.panStart.y) }
      panStart := pos }
  else
    match s.isRotating, s.rotatingCardId with
    | true, some cid =>
      let currentAngle :=
        calculateAngle atan2deg s.rotationCenter.x s.rotationCenter.y pos.x pos.y
      let deltaAngle := normalizeDeltaAngle (currentAngle - s.lastMouseAngle)
      { s with
        placedCards := s.placedCards.map (fun c =>
          if c.instanceId = cid then { c with rotation := c.rotation + deltaAngle } else c)
        lastMouseAngle := currentAngle }
    | _, _ =>
      if !s.isDragging then s
      else
        match s.dragSource, s.draggedCardId with
        | some DragSource.deck, _ => { s with ghostPosition := pos }
        | some DragSource.table, some cid =>
          let currentMouseWorldX := (pos.x - s.pan.x) / s.zoom
          let currentMouseWorldY := (pos.y - s.pan.y) / s.zoom
          { s with
            placedCards := s.placedCards.map (fun c =>
              if c.instanceId = cid then
                { c with x := currentMouseWorldX - s.dragOffset.x,
                         y := currentMouseWorldY - s.dragOffset.y }
              else c) }
        | _, _ => s

/-- `handleMove` from `src/unnamed/part_000`: the two-finger pinch branch
(centre-anchored zoom, with the JavaScript truthiness test
`dist && lastPinchDistRef.current`) takes priority, then `moveCore`. -/
def handleMove (env : Env) (atan2deg : ℚ → ℚ → ℚ) (m : MoveEv)
    (s : AppState) : AppState :=
  match m with
  | .touchTwo dist =>
    let s' :=
      match s.lastPinchDist with
      | some prev =>
        if dist ≠ 0 ∧ prev ≠ 0 then
          let delta := dist - prev
          let newZoom := min (max (1/10) (s.zoom + delta * (5/1000))) 5
          let centerX := env.innerWidth / 2
          let centerY := env.innerHeight / 2
          let worldX := (centerX - s.pan.x) / s.zoom
          let worldY := (centerY - s.pan.y) / s.zoom
          { s with
            zoom := newZoom
            pan := { x := centerX - worldX * newZoom, y := centerY - worldY * newZoom } }
        else s
      | Option.none => s
    { s' with lastPinchDist := some dist }
  | .mouse pos => moveCore atan2deg pos s
  | .touchOne pos => moveCore atan2deg pos s

/-- A normalised end event: mouse-up position, or touch-end with the first
changed touch and the number of touches still on the surface (used by the
pinch-reset check `e.touches.length < 2`). -/
inductive EndEv where
  | mouse (pos : Point)
  | touch (pos : Point) (remainingTouches : ℕ)
deriving DecidableEq, Repr

/-- `handleEnd` from `src/unnamed/part_000`, with the freshly generated
instance id supplied as the oracle `newInstanceId`.  In the `DECK` branch
the source reads `deck[0]`, which is only reachable with a non-empty pile
(`handleStartDeck` refuses to start a deck drag on an empty pile and
nothing during a drag refills state seen by this snapshot in the modelled
sequences); the empty case is modelled as clearing the drag state only.
The `Math.sqrt(dx² + dy²) < 15` tap test is embedded squared. -/
def handleEnd (env : Env) (newInstanceId : String) (e : EndEv)
    (s : AppState) : AppState :=
  let s :=
    match e with
    | .touch _ remaining => if remaining < 2 then { s with lastPinchDist := Option.none } else s
    | .mouse _ => s
  let s := if s.isPanning then { s with isPanning := false } else s
  if s.isRotating then { s with isRotating := false, rotatingCardId := Option.none }
  else if !s.isDragging then s
  else
    let pos := match e with | .mouse p => p | .touch p _ => p
    let s' : AppState :=
      match s.dragSource, s.draggedCardId with
      | some DragSource.deck, _ =>
        match s.deck with
        | [] => s
        | newCardData :: remainingDeck =>
          let dropWorld := screenToWorld s.pan s.zoom pos.x pos.y
          let cardDims := getCurrentCardDimensions env s.currentDeckStyle
          let finalX := dropWorld.x - cardDims.width / 2
          let finalY := dropWorld.y - cardDims.height / 2
          let newPlacedCard : PlacedCard :=
            { toTarotCardData := newCardData
              instanceId := newInstanceId
              x := finalX
              y := finalY
              isFlipped := false
              zIndex := s.zIndexCounter + 1
              rotation := 0 }
          { s with
            zIndexCounter := s.zIndexCounter + 1
            placedCards := s.placedCards ++ [newPlacedCard]
            deck := remainingDeck }
      | some DragSource.table, some cid =>
        let dx := pos.x - s.dragStartPos.x
        let dy := pos.y - s.dragStartPos.y
        if dx * dx + dy * dy < 15 * 15 then
          { s with
            placedCards := s.placedCards.map (fun c =>
              if c.instanceId = cid then { c with isFlipped := !c.isFlipped } else c) }
        else s
      | _, _ => s
    { s' with isDragging := false, dragSource := Option.none, draggedCardId := Option.none }

/-- `zoomStep` from `src/unnamed/part_000` (the discrete plus/minus zoom
buttons, anchored at the viewport centre). -/
def zoomStep (env : Env) (delta : ℚ) (s : AppState) : AppState :=
  let centerScreenX := env.innerWidth / 2
  let centerScreenY := env.innerHeight / 2
  let currentZoom := s.zoom
  let newZoom := min (max (1/10) (currentZoom + delta)) 5
  if newZoom = currentZoom then s
  else
    let mouseWorldX := (centerScreenX - s.pan.x) / currentZoom
    let mouseWorldY := (centerScreenY - s.pan.y) / currentZoom
    { s with
      zoom := newZoom
      pan := { x := centerScreenX - mouseWorldX * newZoom,
               y := centerScreenY - mouseWorldY * newZoom } }

/-- The pan update of the wheel handler in the `src/App.tsx` variant
(lines 132–136): `newPan = cursor - (cursor - pan) * (newZoom / zoom)`. -/
def appTsxWheelPan (pan : Point) (zoom newZoom cx cy : ℚ) : Point :=
  let scaleFactor := newZoom / zoom
  { x := cx - (cx - pan.x) * scaleFactor, y := cy - (cy - pan.y) * scaleFactor }

/-- The pan update of the wheel handler in the unified variant
(`src/unnamed/part_000` lines 252–260):
`newPan = cursor - ((cursor - pan) / zoom) * newZoom` (the same computation
`handleWheel` commits). -/
def unifiedWheelPan (pan : Point) (zoom newZoom cx cy : ℚ) : Point :=
  { x := cx - (cx - pan.x) / zoom * newZoom, y := cy - (cy - pan.y) / zoom * newZoom }

/-- The `TABLE` branch of `handleMouseUp` in the mouse-only `src/App.tsx`
variant (lines 282–290): tap threshold 5 px (`Math.sqrt` comparison embedded
squared), toggling `isFlipped` of the dragged card. -/
def appTsxTableDrop (dragStartPos pos : Point) (placedCards : List PlacedCard)
    (cid : String) : List PlacedCard :=
  let dx := pos.x - dragStartPos.x
  let dy := pos.y - dragStartPos.y
  if dx * dx + dy * dy < 5 * 5 then
    placedCards.map (fun c =>
      if c.instanceId = cid then { c with isFlipped := !c.isFlipped } else c)
  else placedCards

/-- Which DOM target a pointer-down / touch-start lands on (deck pile, a
placed card body, a rotate handle, or the open background). -/
inductive StartTarget where
  | deckTarget
  | cardTarget (iid : String)
  | rotateTarget (iid : String)
  | backgroundTarget
deriving DecidableEq, Repr

/-- One raw input event of the gesture layer: pointer-down / touch-start on
a target, the container two-finger touch-start (which only seeds the pinch
distance), a move, an up / touch-end (with the instance-id oracle for a
possible deck drop), and the space key transitions. -/
inductive GEvent where
  | mouseDown (t : StartTarget) (pos : Point) (button : ℤ) (now : ℚ)
  | touchStart (t : StartTarget) (pos : Point) (now : ℚ)
  | touchStartPinch (dist : ℚ)
  | moveEv (m : MoveEv)
  | endEv (newInstanceId : String) (e : EndEv)
  | spaceDown
  | spaceUp
deriving DecidableEq, Repr

/-- Look up a placed card by instance id (the value the JSX closure passes
to the card handlers). -/
def findPlaced (s : AppState) (iid : String) : Option PlacedCard :=
  s.placedCards.find? (fun c => decide (c.instanceId = iid))

/-- Dispatch one raw event to the handler the component wires it to
(`onStart` props of `Deck`/`CardComponent`, the container mouse/touch-down,
the window-level move/up listeners, the space key effect). -/
def gstep (env : Env) (atan2deg : ℚ → ℚ → ℚ) (e : GEvent) (s : AppState) : AppState :=
  match e with
  | .mouseDown t pos b now =>
    match t with
    | .deckTarget => handleStartDeck env now (.mouse pos b) s
    | .cardTarget iid =>
      match findPlaced s iid with
      | some card => handleStartTableCard now (.mouse pos b) card s
      | Option.none => s
    | .rotateTarget iid =>
      match findPlaced s iid with
      | some card => handleStartRotate env atan2deg now (.mouse pos b) card s
      | Option.none => s
    | .backgroundTarget => handleStartBackground now (.mouse pos b) s
  | .touchStart t pos now =>
    match t with
    | .deckTarget => handleStartDeck env now (.touch pos) s
    | .cardTarget iid =>
      match findPlaced s iid with
      | some card => handleStartTableCard now (.touch pos) card s
      | Option.none => s
    | .rotateTarget iid =>
      match findPlaced s iid with
      | some card => handleStartRotate env atan2deg now (.touch pos) card s
      | Option.none => s
    | .backgroundTarget => handleStartBackground now (.touch pos) s
  | .touchStartPinch d => { s with lastPinchDist := some d }
  | .moveEv m => handleMove env atan2deg m s
  | .endEv newId ev => handleEnd env newId ev s
  | .spaceDown => { s with isSpacePressed := true }
  | .spaceUp => { s with isSpacePressed := false, isPanning := false }

/-- Run a sequence of raw input events. -/
def runEvents (env : Env) (atan2deg : ℚ → ℚ → ℚ) (es : List GEvent)
    (s : AppState) : AppState :=
  es.foldl (fun s e => gstep env atan2deg e s) s

/-- How many of the three gesture flags are raised. -/
def gestureCount (s : AppState) : ℕ :=
  (if s.isPanning then 1 else 0) + (if s.isDragging then 1 else 0) +
    (if s.isRotating then 1 else 0)

/-- Is the event a gesture-start (pointer-down / touch-start on a target)? -/
def isStartEvent : GEvent → Bool
  | .mouseDown _ _ _ _ => true
  | .touchStart _ _ _ => true
  | _ => false

/-- Single-pointer discipline: along the sequence, every gesture-start event
is delivered while no gesture is active (as with one alternating
pointer-down / pointer-up stream). -/
def downsOnlyWhenIdle (env : Env) (atan2deg : ℚ → ℚ → ℚ) :
    AppState → List GEvent → Bool
  | _, [] => true
  | s, e :: es =>
    (!isStartEvent e || decide (gestureCount s = 0)) &&
      downsOnlyWhenIdle env atan2deg (gstep env atan2deg e s) es

/-- The game-level operations of the deck-partition claim, each an atomic
completed interaction: shuffle / collect-and-reshuffle (the same button),
a draw (deck-drag start followed by its drag-end), a filter change, and a
deck-style change. -/
inductive GameOp where
  | shuffleReset (rand₁ rand₂ : ℕ → ℕ)
  | draw (p : PointerEv) (now : ℚ) (e : EndEv) (newInstanceId : String)
  | setFilter (t : FilterType)
  | setStyle (st : DeckStyle)

/-- Apply one game-level operation. -/
def applyGameOp (env : Env) (op : GameOp) (s : AppState) : AppState :=
  match op with
  | .shuffleReset r₁ r₂ => handleShuffleAndReset env r₁ r₂ s
  | .draw p now e newId => handleEnd env newId e (handleStartDeck env now p s)
  | .setFilter t => handleFilterChange t s
  | .setStyle st => handleStyleChange st s

/-- Run a sequence of game-level operations. -/
def runGameOps (env : Env) (ops : List GameOp) (s : AppState) : AppState :=
  ops.foldl (fun s op => applyGameOp env op s) s

/-- The multiset (as a list) of card ids distributed over pile, reserve and
table. -/
def partitionIds (s : AppState) : List String :=
  s.deck.map (fun c => c.id) ++ s.reserveCards.map (fun c => c.id) ++
    s.placedCards.map (fun c => c.id)

/-- The ids of the full 78-card set (style-independent). -/
def fullIds : List String := (createDeck .noblet).map (fun c => c.id)

/-- A zoom-affecting event of the zoom-clamp claim: wheel delta, two-finger
touch-start (seeds the pinch distance), pinch move, discrete zoom-step
button, and the zoom-reset button (`setZoom(1)`). -/
inductive ZoomEv where
  | wheel (cx cy deltaY : ℚ)
  | pinchStart (dist : ℚ)
  | pinchMove (dist : ℚ)
  | step (delta : ℚ)
  | reset
deriving DecidableEq, Repr

/-- Apply one zoom event (the pinch branch of `handleMove` never consults
the angle oracle, so a constant stands in for it). -/
def applyZoomEv (env : Env) (z : ZoomEv) (s : AppState) : AppState :=
  match z with
  | .wheel cx cy d => handleWheel cx cy d s
  | .pinchStart d => { s with lastPinchDist := some d }
  | .pinchMove d => handleMove env (fun _ _ => 0) (.touchTwo d) s
  | .step d => zoomStep env d s
  | .reset => { s with zoom := 1 }

/-- Run a sequence of zoom events. -/
def runZoomEvs (env : Env) (es : List ZoomEv) (s : AppState) : AppState :=
  es.foldl (fun s z => applyZoomEv env z s) s

/-- A desktop-sized browser window used by the concrete evaluations. -/
def demoEnv : Env := { innerWidth := 1024, innerHeight := 768 }

/-- A sample card definition (the first card `createDeck` produces) used to
build concrete states. -/
def demoCard : TarotCardData :=
  { id := "major_0"
    name := "Le Mat"
    number := 0
    arcana := .major
    suit := .none
    fileName := "le_mat"
    imageUrl := "/cards/noblet/le_mat.jpg"
    backImageUrl := "https://www.transparenttextures.com/patterns/black-scales.png" }

/-- A concrete placed instance of `demoCard`, face down at the origin. -/
def demoPlaced : PlacedCard :=
  { toTarotCardData := demoCard
    instanceId := "inst-a"
    x := 0
    y := 0
    isFlipped := false
    zIndex := 10
    rotation := 0 }

/-- A concrete state in the middle of dragging the placed card `inst-a`
(pointer went down at the screen origin), used to evaluate the drag-end
handler. -/
def tableDragState : AppState :=
  { initialAppState with
    placedCards := [demoPlaced]
    isDragging := true
    dragSource := some DragSource.table
    draggedCardId := some "inst-a"
    dragStartPos := { x := 0, y := 0 } }

/-- A concrete state about to draw: a 78-card pile of copies of `demoCard`,
nothing on the table, identity viewport. -/
def drawDemoState : AppState :=
  { initialAppState with
    deck := List.replicate 78 demoCard
    lastTouchTime := 0 }

/-- A concrete state in the middle of rotating the placed card `inst-a`,
with the recorded angle at 179 degrees. -/
def rotateDemoState : AppState :=
  { initialAppState with
    placedCards := [demoPlaced]
    isRotating := true
    rotatingCardId := some "inst-a"
    rotationCenter := { x := 0, y := 0 }
    lastMouseAngle := 179 }

/-! ## General lemmas about the embedded operations -/

theorem headSwap_perm (a : α) : ∀ (l : List α) (j : ℕ) (b : α),
    l.get? j = some b → List.Perm (b :: l.set j a) (a :: l)
  | [], j, b, h => by simp at h
  | x :: t, 0, b, h => by
    simp at h
    subst h
    exact List.Perm.swap a x t
  | x :: t, j + 1, b, h => by
    simp only [List.get?_cons_succ] at h
    have ih := headSwap_perm a t j b h
    show List.Perm (b :: x :: t.set j a) (a :: x :: t)
    exact ((List.Perm.swap b x _).symm.trans (ih.cons x)).trans (List.Perm.swap a x t)

theorem listSwap_perm : ∀ (l : List α) (i j : ℕ), List.Perm (listSwap l i j) l := by
  intro l
  induction l with
  | nil => intro i j; simp [listSwap]
  | cons x t ih =>
    intro i j
    match i, j with
    | 0, 0 =>
      simp [listSwap]
    | 0, j + 1 =>
      unfold listSwap
      simp only [List.get?_cons_zero, List.get?_cons_succ]
      cases h : t.get? j with
      | none => exact List.Perm.refl _
      | some b =>
        show List.Perm (b :: t.set j x) (x :: t)
        exact headSwap_perm x t j b h
    | i + 1, 0 =>
      unfold listSwap
      simp only [List.get?_cons_zero, List.get?_cons_succ]
      cases h : t.get? i with
      | none => exact List.Perm.refl _
      | some a =>
        show List.Perm (a :: t.set i x) (x :: t)
        exact headSwap_perm x t i a h
    | i + 1, j + 1 =>
      unfold listSwap
      simp only [List.get?_cons_succ]
      cases h1 : t.get? i with
      | none => exact List.Perm.refl _
      | some a =>
        cases h2 : t.get? j with
        | none => exact List.Perm.refl _
        | some b =>
          have := ih i j
          unfold listSwap at this
          rw [h1, h2] at this
          show List.Perm (x :: (t.set i b).set j a) (x :: t)
          exact this.cons x

theorem shuffleAux_perm (rand : ℕ → ℕ) :
    ∀ (n : ℕ) (l : List α), List.Perm (shuffleAux rand l n) l
  | 0, l => List.Perm.refl l
  | n + 1, l =>
    (shuffleAux_perm rand n (listSwap l (n + 1) (rand (n + 1) % (n + 2)))).trans
      (listSwap_perm l (n + 1) (rand (n + 1) % (n + 2)))

theorem shuffleDeck_perm (rand : ℕ → ℕ) (l : List α) :
    List.Perm (shuffleDeck rand l) l :=
  shuffleAux_perm rand (l.length - 1) l

theorem createDeck_length (style : DeckStyle) : (createDeck style).length = 78 := by
  cases style <;> decide

theorem shuffleDeck_length (rand : ℕ → ℕ) (l : List α) :
    (shuffleDeck rand l).length = l.length :=
  (shuffleDeck_perm rand l).length_eq

theorem createDeck_ids (style : DeckStyle) :
    (createDeck style).map (fun c => c.id) = fullIds := by
  cases style <;> rfl

theorem fullIds_nodup : fullIds.Nodup := by decide

/-! ## Claim theorems -/

/-- C3: for all screen coordinates and any pan and nonzero zoom (in
particular every zoom in the clamp range `[0.1, 5]`),
`worldToScreen (screenToWorld (sx, sy)) = (sx, sy)` exactly, over rational
arithmetic. -/
theorem coordinate_round_trip (pan : Point) (zoom sx sy : ℚ) (hz : zoom ≠ 0) :
    worldToScreen pan zoom (screenToWorld pan zoom sx sy).x
      (screenToWorld pan zoom sx sy).y = { x := sx, y := sy } := by
  simp only [worldToScreen, screenToWorld, Point.mk.injEq]
  constructor <;> field_simp

/-- Witness for C3 at `pan = (3, 4)`, `zoom = 2`, `(sx, sy) = (10, 20)`. -/
theorem coordinate_round_trip_witness :
    (2 : ℚ) ≠ 0 ∧
      worldToScreen { x := 3, y := 4 } 2
        (screenToWorld { x := 3, y := 4 } 2 10 20).x
        (screenToWorld { x := 3, y := 4 } 2 10 20).y = { x := 10, y := 20 } :=
  ⟨by decide, coordinate_round_trip { x := 3, y := 4 } 2 10 20 (by decide)⟩

/-- C1: for a viewport with zoom in `[0.1, 5]`, a wheel event at screen
point `(cx, cy)` whose clamped new zoom differs from the current zoom
leaves the world point under the cursor fixed: `screenToWorld (cx, cy)`
under the post-update pan/zoom equals `screenToWorld (cx, cy)` under the
pre-update pan/zoom. -/
theorem wheel_zoom_cursor_anchored (s : AppState) (cx cy deltaY : ℚ)
    (hz₁ : 1/10 ≤ s.zoom) (hz₂ : s.zoom ≤ 5)
    (hne : min (max (1/10) (s.zoom + -deltaY * (1/1000) * s.zoom)) 5 ≠ s.zoom) :
    screenToWorld (handleWheel cx cy deltaY s).pan (handleWheel cx cy deltaY s).zoom cx cy
      = screenToWorld s.pan s.zoom cx cy := by
  have hz0 : s.zoom ≠ 0 := ne_of_gt (lt_of_lt_of_le (by norm_num) hz₁)
  have hnz : (1 : ℚ)/10 ≤ min (max (1/10) (s.zoom + -deltaY * (1/1000) * s.zoom)) 5 :=
    le_min (le_max_left _ _) (by norm_num)
  have hnz0 : min (max (1/10) (s.zoom + -deltaY * (1/1000) * s.zoom)) 5 ≠ 0 :=
    ne_of_gt (lt_of_lt_of_le (by norm_num) hnz)
  unfold handleWheel
  dsimp only
  split
  · rfl
  · simp only [screenToWorld, Point.mk.injEq]
    constructor <;> · field_simp; ring

/-- Witness for C1: zoom 1, pan (0, 0), wheel delta −100 at the cursor
(50, 40); the clamped new zoom is 1.1 ≠ 1. -/
theorem wheel_zoom_cursor_anchored_witness :
    ((1 : ℚ)/10 ≤ (initialAppState).zoom ∧ (initialAppState).zoom ≤ 5 ∧
      min (max (1/10) ((initialAppState).zoom +
        -(-100 : ℚ) * (1/1000) * (initialAppState).zoom)) 5 ≠ (initialAppState).zoom) ∧
    screenToWorld (handleWheel 50 40 (-100) initialAppState).pan
        (handleWheel 50 40 (-100) initialAppState).zoom 50 40
      = screenToWorld (initialAppState).pan (initialAppState).zoom 50 40 :=
  ⟨⟨by with_unfolding_all decide, by with_unfolding_all decide, by with_unfolding_all decide⟩,
    wheel_zoom_cursor_anchored initialAppState 50 40 (-100) (by with_unfolding_all decide)
      (by with_unfolding_all decide) (by with_unfolding_all decide)⟩

/-- C10: for the same pre-state `(pan, zoom)` with `zoom ≠ 0`, cursor
`(cx, cy)` and resulting new zoom `z'`, the `src/App.tsx` pan update
`cx − (cx − pan.x)·(z'/zoom)` and the `src/unnamed/part_000` pan update
`cx − ((cx − pan.x)/zoom)·z'` compute the same pan; moreover the committed
pan of `handleWheel` is exactly the latter formula at its clamped zoom. -/
theorem wheel_pan_variants_equal (pan : Point) (zoom newZoom cx cy : ℚ)
    (hz : zoom ≠ 0) :
    appTsxWheelPan pan zoom newZoom cx cy = unifiedWheelPan pan zoom newZoom cx cy ∧
    (∀ s : AppState, ∀ deltaY : ℚ,
      ¬ |min (max (1/10) (s.zoom + -deltaY * (1/1000) * s.zoom)) 5 - s.zoom| < 1/10000 →
      (handleWheel cx cy deltaY s).pan
        = unifiedWheelPan s.pan s.zoom
            (min (max (1/10) (s.zoom + -deltaY * (1/1000) * s.zoom)) 5) cx cy) := by
  constructor
  · simp only [appTsxWheelPan, unifiedWheelPan, Point.mk.injEq]
    constructor <;> · field_simp; try ring
  · intro s deltaY hgate
    unfold handleWheel
    dsimp only
    split
    · exact absurd (by assumption) hgate
    · simp only [unifiedWheelPan]

/-- Witness for C10 at `pan = (7, 11)`, `zoom = 2`, `z' = 3`, cursor
`(100, 50)`. -/
theorem wheel_pan_variants_equal_witness :
    (2 : ℚ) ≠ 0 ∧
      (appTsxWheelPan { x := 7, y := 11 } 2 3 100 50
          = unifiedWheelPan { x := 7, y := 11 } 2 3 100 50 ∧
        (∀ s : AppState, ∀ deltaY : ℚ,
          ¬ |min (max (1/10) (s.zoom + -deltaY * (1/1000) * s.zoom)) 5 - s.zoom| < 1/10000 →
          (handleWheel 100 50 deltaY s).pan
            = unifiedWheelPan s.pan s.zoom
                (min (max (1/10) (s.zoom + -deltaY * (1/1000) * s.zoom)) 5) 100 50)) :=
  ⟨by with_unfolding_all decide,
    wheel_pan_variants_equal { x := 7, y := 11 } 2 3 100 50 (by with_unfolding_all decide)⟩

/-- C9: `handleStyleChange` re-resolves the asset URLs of every card in the
pile, the reserve and the table in place, leaving identity, name, number,
arcana, suit, file name, position, rotation, flip state and stack order
unchanged; the three collections keep their length and order (a pure
re-skin, never a re-deal). -/
theorem style_change_reskins (style : DeckStyle) (s : AppState)
    (c : TarotCardData) (p : PlacedCard) :
    ((updateCardAssets c style).id = c.id ∧
     (updateCardAssets c style).name = c.name ∧
     (updateCardAssets c style).number = c.number ∧
     (updateCardAssets c style).arcana = c.arcana ∧
     (updateCardAssets c style).suit = c.suit ∧
     (updateCardAssets c style).fileName = c.fileName ∧
     (updateCardAssets c style).imageUrl
       = getCardAssetUrl c.fileName c.name .front style ∧
     (updateCardAssets c style).backImageUrl
       = getCardAssetUrl "back" "Back" .back style) ∧
    ((updatePlacedCardAssets p style).instanceId = p.instanceId ∧
     (updatePlacedCardAssets p style).id = p.id ∧
     (updatePlacedCardAssets p style).name = p.name ∧
     (updatePlacedCardAssets p style).number = p.number ∧
     (updatePlacedCardAssets p style).arcana = p.arcana ∧
     (updatePlacedCardAssets p style).suit = p.suit ∧
     (updatePlacedCardAssets p style).fileName = p.fileName ∧
     (updatePlacedCardAssets p style).x = p.x ∧
     (updatePlacedCardAssets p style).y = p.y ∧
     (updatePlacedCardAssets p style).rotation = p.rotation ∧
     (updatePlacedCardAssets p style).isFlipped = p.isFlipped ∧
     (updatePlacedCardAssets p style).zIndex = p.zIndex) ∧
    ((handleStyleChange style s).deck
       = s.deck.map (fun card => updateCardAssets card style) ∧
     (handleStyleChange style s).reserveCards
       = s.reserveCards.map (fun card => updateCardAssets card style) ∧
     (handleStyleChange style s).placedCards
       = s.placedCards.map (fun card => updatePlacedCardAssets card style) ∧
     (handleStyleChange style s).deck.length = s.deck.length ∧
     (handleStyleChange style s).reserveCards.length = s.reserveCards.length ∧
     (handleStyleChange style s).placedCards.length = s.placedCards.length) := by
  refine ⟨⟨rfl, rfl, rfl, rfl, rfl, rfl, rfl, rfl⟩,
          ⟨rfl, rfl, rfl, rfl, rfl, rfl, rfl, rfl, rfl, rfl, rfl, rfl⟩,
          ⟨rfl, rfl, rfl, ?_, ?_, ?_⟩⟩
  · simp [handleStyleChange]
  · simp [handleStyleChange]
  · simp [handleStyleChange]

/-- C4 (amended): during rotation, a move event computes
`delta = current − last` (angles in degrees from the pivot) and normalises
it into the closed interval `[−180, 180]`, subtracting 360 exactly once
when the raw delta exceeds 180 and adding 360 exactly once when it is below
−180 (a raw delta of exactly −180 is left unchanged, so −180 itself can be
produced); for previous angle 179° and current angle −179° the delta is +2°;
the normalised delta is added to the rotating card's unbounded rotation
accumulator and the last recorded angle becomes the current angle. -/
theorem rotation_delta_shortest_path
    (prev curr : ℚ) (hp₁ : -180 < prev) (hp₂ : prev ≤ 180)
    (hc₁ : -180 < curr) (hc₂ : curr ≤ 180)
    (env : Env) (atan2deg : ℚ → ℚ → ℚ) (s : AppState) (cid : String) (pos : Point)
    (hpan : s.isPanning = false) (hrot : s.isRotating = true)
    (hid : s.rotatingCardId = some cid)
    (hang : atan2deg (pos.y - s.rotationCenter.y) (pos.x - s.rotationCenter.x) = curr)
    (hlast : s.lastMouseAngle = prev) :
    (-180 ≤ normalizeDeltaAngle (curr - prev) ∧ normalizeDeltaAngle (curr - prev) ≤ 180) ∧
    (180 < curr - prev → normalizeDeltaAngle (curr - prev) = curr - prev - 360) ∧
    (curr - prev < -180 → normalizeDeltaAngle (curr - prev) = curr - prev + 360) ∧
    (-180 ≤ curr - prev → curr - prev ≤ 180 →
      normalizeDeltaAngle (curr - prev) = curr - prev) ∧
    (handleMove env atan2deg (.mouse pos) s).placedCards
      = s.placedCards.map (fun c =>
          if c.instanceId = cid then
            { c with rotation := c.rotation + normalizeDeltaAngle (curr - prev) }
          else c) ∧
    (handleMove env atan2deg (.mouse pos) s).lastMouseAngle = curr := by
  have hub : curr - prev < 360 := by linarith
  have hlb : -360 < curr - prev := by linarith
  refine ⟨?_, ?_, ?_, ?_, ?_, ?_⟩
  · unfold normalizeDeltaAngle
    dsimp only
    split_ifs <;> constructor <;> linarith
  · intro h
    unfold normalizeDeltaAngle
    dsimp only
    split_ifs <;> linarith
  · intro h
    unfold normalizeDeltaAngle
    dsimp only
    split_ifs <;> linarith
  · intro h1 h2
    unfold normalizeDeltaAngle
    dsimp only
    split_ifs <;> linarith
  · simp [handleMove, moveCore, hpan, hrot, hid, calculateAngle, hang, hlast]
  · simp [handleMove, moveCore, hpan, hrot, hid, calculateAngle, hang, hlast]

/-- Witness for C4 (amended) at previous angle 179°, current angle −179° in
the concrete rotating state: the raw delta −358 is normalised to +2, the
card accumulator gains +2, and the recorded angle becomes −179. -/
theorem rotation_delta_shortest_path_witness :
    (-180 < (179 : ℚ) ∧ (179 : ℚ) ≤ 180 ∧ -180 < (-179 : ℚ) ∧ (-179 : ℚ) ≤ 180 ∧
      rotateDemoState.isPanning = false ∧ rotateDemoState.isRotating = true ∧
      rotateDemoState.rotatingCardId = some "inst-a" ∧
      (fun _ _ => (-179 : ℚ)) ((0 : ℚ) - rotateDemoState.rotationCenter.y)
        ((0 : ℚ) - rotateDemoState.rotationCenter.x) = (-179 : ℚ) ∧
      rotateDemoState.lastMouseAngle = 179) ∧
    ((-180 ≤ normalizeDeltaAngle ((-179 : ℚ) - 179) ∧
        normalizeDeltaAngle ((-179 : ℚ) - 179) ≤ 180) ∧
      (180 < (-179 : ℚ) - 179 →
        normalizeDeltaAngle ((-179 : ℚ) - 179) = (-179 : ℚ) - 179 - 360) ∧
      ((-179 : ℚ) - 179 < -180 →
        normalizeDeltaAngle ((-179 : ℚ) - 179) = (-179 : ℚ) - 179 + 360) ∧
      (-180 ≤ (-179 : ℚ) - 179 → (-179 : ℚ) - 179 ≤ 180 →
        normalizeDeltaAngle ((-179 : ℚ) - 179) = (-179 : ℚ) - 179) ∧
      (handleMove demoEnv (fun _ _ => (-179 : ℚ))
          (.mouse { x := 0, y := 0 }) rotateDemoState).placedCards
        = rotateDemoState.placedCards.map (fun c =>
            if c.instanceId = "inst-a" then
              { c with rotation := c.rotation + normalizeDeltaAngle ((-179 : ℚ) - 179) }
            else c) ∧
      (handleMove demoEnv (fun _ _ => (-179 : ℚ))
          (.mouse { x := 0, y := 0 }) rotateDemoState).lastMouseAngle = (-179 : ℚ)) :=
  ⟨⟨by with_unfolding_all decide, by with_unfolding_all decide,
     by with_unfolding_all decide, by with_unfolding_all decide,
     rfl, rfl, rfl, rfl, rfl⟩,
    rotation_delta_shortest_path 179 (-179)
      (by with_unfolding_all decide) (by with_unfolding_all decide)
      (by with_unfolding_all decide) (by with_unfolding_all decide)
      demoEnv (fun _ _ => (-179 : ℚ)) rotateDemoState "inst-a" { x := 0, y := 0 }
      rfl rfl rfl rfl rfl⟩

/-- Counterexample to C4 as stated: the raw delta −180 — produced, for
example, by a previous angle of exactly 180° (which `Math.atan2` yields in
degrees on the negative x-axis, as the last conjunct records) and a current
angle of 0° — lies outside `(−180, 180]`, yet the code leaves it at −180
instead of wrapping it once to +180, so the normalised delta is *not* in
`(−180, 180]`. -/
theorem rotation_delta_boundary_cex :
    normalizeDeltaAngle (0 - 180) = -180 ∧
    ¬ (-180 < normalizeDeltaAngle (0 - 180)) ∧
    Complex.arg (-1) * (180 / Real.pi) = 180 := by
  refine ⟨by with_unfolding_all decide, by with_unfolding_all decide, ?_⟩
  rw [Complex.arg_neg_one]
  have hπ : Real.pi ≠ 0 := Real.pi_ne_zero
  field_simp

/-- C6 (amended): when a placed-card drag ends, the unified handler of
`src/unnamed/part_000` applies one tap threshold of 15 px to mouse and touch
input alike (a sub-threshold release toggles the card's flip flag, any other
release leaves the card list — hence the dragged-to position — untouched),
while the mouse-only `src/App.tsx` variant uses a 5 px threshold; in both
variants a 3 px release toggles and a 20 px release does not. -/
theorem tap_threshold_behavior (env : Env) (newId : String) (s : AppState)
    (pos : Point) (cid : String) (remaining : ℕ)
    (hpan : s.isPanning = false) (hrot : s.isRotating = false)
    (hdrag : s.isDragging = true) (hsrc : s.dragSource = some DragSource.table)
    (hcid : s.draggedCardId = some cid) :
    let dx := pos.x - s.dragStartPos.x
    let dy := pos.y - s.dragStartPos.y
    let toggled := s.placedCards.map (fun c =>
      if c.instanceId = cid then { c with isFlipped := !c.isFlipped } else c)
    ((handleEnd env newId (.mouse pos) s).placedCards
        = if dx * dx + dy * dy < 15 * 15 then toggled else s.placedCards) ∧
    ((handleEnd env newId (.touch pos remaining) s).placedCards
        = if dx * dx + dy * dy < 15 * 15 then toggled else s.placedCards) ∧
    (appTsxTableDrop s.dragStartPos pos s.placedCards cid
        = if dx * dx + dy * dy < 5 * 5 then toggled else s.placedCards) := by
  dsimp only
  refine ⟨?_, ?_, ?_⟩
  · simp [handleEnd, hpan, hrot, hdrag, hsrc, hcid]
    split <;> rfl
  · unfold handleEnd
    dsimp only
    split <;> · simp [hpan, hrot, hdrag, hsrc, hcid]; split <;> rfl
  · rfl

/-- Witness for C6 (amended): releasing the dragged card 3 px away from the
press point (mouse or touch) toggles the flip flag in the unified handler
and in the `App.tsx` variant. -/
theorem tap_threshold_behavior_witness :
    (tableDragState.isPanning = false ∧ tableDragState.isRotating = false ∧
      tableDragState.isDragging = true ∧
      tableDragState.dragSource = some DragSource.table ∧
      tableDragState.draggedCardId = some "inst-a") ∧
    (((handleEnd demoEnv "fresh" (.mouse { x := 3, y := 0 }) tableDragState).placedCards
        = if ((3 : ℚ) - tableDragState.dragStartPos.x) * ((3 : ℚ) - tableDragState.dragStartPos.x) +
              ((0 : ℚ) - tableDragState.dragStartPos.y) * ((0 : ℚ) - tableDragState.dragStartPos.y) < 15 * 15
          then tableDragState.placedCards.map (fun c =>
              if c.instanceId = "inst-a" then { c with isFlipped := !c.isFlipped } else c)
          else tableDragState.placedCards) ∧
      ((handleEnd demoEnv "fresh" (.touch { x := 3, y := 0 } 0) tableDragState).placedCards
        = if ((3 : ℚ) - tableDragState.dragStartPos.x) * ((3 : ℚ) - tableDragState.dragStartPos.x) +
              ((0 : ℚ) - tableDragState.dragStartPos.y) * ((0 : ℚ) - tableDragState.dragStartPos.y) < 15 * 15
          then tableDragState.placedCards.map (fun c =>
              if c.instanceId = "inst-a" then { c with isFlipped := !c.isFlipped } else c)
          else tableDragState.placedCards) ∧
      (appTsxTableDrop tableDragState.dragStartPos { x := 3, y := 0 }
          tableDragState.placedCards "inst-a"
        = if ((3 : ℚ) - tableDragState.dragStartPos.x) * ((3 : ℚ) - tableDragState.dragStartPos.x) +
              ((0 : ℚ) - tableDragState.dragStartPos.y) * ((0 : ℚ) - tableDragState.dragStartPos.y) < 5 * 5
          then tableDragState.placedCards.map (fun c =>
              if c.instanceId = "inst-a" then { c with isFlipped := !c.isFlipped } else c)
          else tableDragState.placedCards)) :=
  ⟨⟨rfl, rfl, rfl, rfl, rfl⟩,
    tap_threshold_behavior demoEnv "fresh" tableDragState { x := 3, y := 0 } "inst-a" 0
      rfl rfl rfl rfl rfl⟩

/-- Counterexample to C6 as stated: a *mouse* drag-end with a 10 px total
displacement — which is at or above the claimed 5 px mouse threshold, as the
second conjunct records — still toggles the flip flag in the cited unified
handler, because that handler applies the single 15 px threshold to mouse
input as well. -/
theorem tap_threshold_mouse_cex :
    (handleEnd demoEnv "fresh" (.mouse { x := 10, y := 0 }) tableDragState).placedCards.map
        (fun c => c.isFlipped) = [true] ∧
    ¬ (((10 : ℚ) - 0) * ((10 : ℚ) - 0) + ((0 : ℚ) - 0) * ((0 : ℚ) - 0) < 5 * 5) := by
  exact ⟨by with_unfolding_all decide, by with_unfolding_all decide⟩

/-- C7: ending a deck drag at screen point `(dx, dy)` with pan `(0, 0)` and
zoom 1, from a state with a 78-card pile and an empty table, removes the
front card from the pile (77 remain) and places exactly one card carrying
the supplied fresh instance id at world position
`(dx − width/2, dy − height/2)`, face down, rotation 0, with stack order
`zIndexCounter + 1`, strictly above every previously placed card. -/
theorem draw_and_place (env : Env) (s : AppState) (now : ℚ) (newId : String)
    (p0 : Point) (dx dy : ℚ) (c : TarotCardData) (rest : List TarotCardData)
    (hdeck : s.deck = c :: rest) (hlen : s.deck.length = 78)
    (hplaced : s.placedCards = [])
    (hpan : s.pan = { x := 0, y := 0 }) (hzoom : s.zoom = 1)
    (hp : s.isPanning = false) (hr : s.isRotating = false)
    (hsh : s.isShufflingDeck = false) (hret : s.isReturningCards = false)
    (htime : ¬ now - s.lastTouchTime < 500) :
    (handleEnd env newId (.mouse { x := dx, y := dy })
        (handleStartDeck env now (.mouse p0 0) s)).deck = rest ∧
    rest.length = 77 ∧
    (handleEnd env newId (.mouse { x := dx, y := dy })
        (handleStartDeck env now (.mouse p0 0) s)).placedCards
      = [{ toTarotCardData := c
           instanceId := newId
           x := dx - (getCurrentCardDimensions env s.currentDeckStyle).width / 2
           y := dy - (getCurrentCardDimensions env s.currentDeckStyle).height / 2
           isFlipped := false
           zIndex := s.zIndexCounter + 1
           rotation := 0 }] ∧
    (∀ q ∈ s.placedCards, q.zIndex < s.zIndexCounter + 1) := by
  have hlen' : rest.length = 77 := by
    have := hlen
    rw [hdeck] at this
    simpa using this
  have hne : ¬ (s.deck.length = 0) := by
    rw [hlen]
    simp
  refine ⟨?_, hlen', ?_, ?_⟩
  · simp [handleStartDeck, startDeckCore, handleEnd, hne, hsh, hret, htime, hdeck,
      hp, hr, hpan, hzoom, screenToWorld]
  · simp [handleStartDeck, startDeckCore, handleEnd, hne, hsh, hret, htime, hdeck,
      hplaced, hp, hr, hpan, hzoom, screenToWorld]
  · intro q hq
    rw [hplaced] at hq
    simp at hq

/-- Witness for C7: drawing from the concrete 78-card pile with pointer-down
at (100, 100) and pointer-up at (300, 300), pan (0, 0), zoom 1. -/
theorem draw_and_place_witness :
    (drawDemoState.deck = demoCard :: List.replicate 77 demoCard ∧
      drawDemoState.deck.length = 78 ∧
      drawDemoState.placedCards = [] ∧
      drawDemoState.pan = { x := 0, y := 0 } ∧
      drawDemoState.zoom = 1 ∧
      drawDemoState.isPanning = false ∧
      drawDemoState.isRotating = false ∧
      drawDemoState.isShufflingDeck = false ∧
      drawDemoState.isReturningCards = false ∧
      ¬ (1000 : ℚ) - drawDemoState.lastTouchTime < 500) ∧
    ((handleEnd demoEnv "fresh" (.mouse { x := 300, y := 300 })
        (handleStartDeck demoEnv 1000 (.mouse { x := 100, y := 100 } 0)
          drawDemoState)).deck = List.replicate 77 demoCard ∧
      (List.replicate 77 demoCard).length = 77 ∧
      (handleEnd demoEnv "fresh" (.mouse { x := 300, y := 300 })
          (handleStartDeck demoEnv 1000 (.mouse { x := 100, y := 100 } 0)
            drawDemoState)).placedCards
        = [{ toTarotCardData := demoCard
             instanceId := "fresh"
             x := 300 - (getCurrentCardDimensions demoEnv drawDemoState.currentDeckStyle).width / 2
             y := 300 - (getCurrentCardDimensions demoEnv drawDemoState.currentDeckStyle).height / 2
             isFlipped := false
             zIndex := drawDemoState.zIndexCounter + 1
             rotation := 0 }] ∧
      (∀ q ∈ drawDemoState.placedCards, q.zIndex < drawDemoState.zIndexCounter + 1)) :=
  ⟨⟨rfl, rfl, rfl, rfl, rfl, rfl, rfl, rfl, rfl, by with_unfolding_all decide⟩,
    draw_and_place demoEnv drawDemoState 1000 "fresh" { x := 100, y := 100 } 300 300
      demoCard (List.replicate 77 demoCard) rfl rfl rfl rfl rfl rfl rfl rfl rfl
      (by with_unfolding_all decide)⟩

/-- Bounds of the clamp `min (max 0.1 z) 5` used by every zoom update. -/
theorem clamp_bounds (z : ℚ) :
    1/10 ≤ min (max (1/10) z) 5 ∧ min (max (1/10) z) 5 ≤ 5 :=
  ⟨le_min (le_max_left _ _) (by norm_num), min_le_right _ _⟩

/-- One zoom event keeps the zoom inside `[0.1, 5]`. -/
theorem applyZoomEv_clamped (env : Env) (z : ZoomEv) (s : AppState)
    (h₁ : 1/10 ≤ s.zoom) (h₂ : s.zoom ≤ 5) :
    1/10 ≤ (applyZoomEv env z s).zoom ∧ (applyZoomEv env z s).zoom ≤ 5 := by
  cases z with
  | wheel cx cy d =>
    unfold applyZoomEv handleWheel
    dsimp only
    split
    · exact ⟨h₁, h₂⟩
    · exact clamp_bounds _
  | pinchStart d => exact ⟨h₁, h₂⟩
  | pinchMove d =>
    unfold applyZoomEv handleMove
    dsimp only
    cases hl : s.lastPinchDist with
    | none => exact ⟨h₁, h₂⟩
    | some prev =>
      dsimp only
      split
      · exact clamp_bounds _
      · exact ⟨h₁, h₂⟩
  | step d =>
    unfold applyZoomEv zoomStep
    dsimp only
    split
    · exact ⟨h₁, h₂⟩
    · exact clamp_bounds _
  | reset =>
    show (1 : ℚ)/10 ≤ 1 ∧ (1 : ℚ) ≤ 5
    exact ⟨by norm_num, by norm_num⟩

/-- C8: starting from any zoom in `[0.1, 5]`, after any sequence of wheel
deltas, pinch events, discrete zoom steps and zoom resets, the zoom still
lies in `[0.1, 5]`: every update commits a clamped value (or leaves the zoom
unchanged), and out-of-range requests are clamped rather than rejected. -/
theorem zoom_always_clamped (env : Env) (s : AppState)
    (h₁ : 1/10 ≤ s.zoom) (h₂ : s.zoom ≤ 5) (es : List ZoomEv) :
    1/10 ≤ (runZoomEvs env es s).zoom ∧ (runZoomEvs env es s).zoom ≤ 5 := by
  induction es generalizing s with
  | nil => exact ⟨h₁, h₂⟩
  | cons z es ih =>
    have hz := applyZoomEv_clamped env z s h₁ h₂
    exact ih (applyZoomEv env z s) hz.1 hz.2

/-- Witness for C8: from zoom 1, a wheel burst, a pinch and the discrete
buttons (including an out-of-range request `+100`) keep the zoom in
`[0.1, 5]`. -/
theorem zoom_always_clamped_witness :
    ((1 : ℚ)/10 ≤ initialAppState.zoom ∧ initialAppState.zoom ≤ 5) ∧
    (1/10 ≤ (runZoomEvs demoEnv
        [ZoomEv.wheel 10 10 (-300), ZoomEv.pinchStart 50, ZoomEv.pinchMove 80,
         ZoomEv.step 100, ZoomEv.step (-100), ZoomEv.reset]
        initialAppState).zoom ∧
      (runZoomEvs demoEnv
        [ZoomEv.wheel 10 10 (-300), ZoomEv.pinchStart 50, ZoomEv.pinchMove 80,
         ZoomEv.step 100, ZoomEv.step (-100), ZoomEv.reset]
        initialAppState).zoom ≤ 5) :=
  ⟨⟨by with_unfolding_all decide, by with_unfolding_all decide⟩,
    zoom_always_clamped demoEnv initialAppState
      (by with_unfolding_all decide) (by with_unfolding_all decide)
      [ZoomEv.wheel 10 10 (-300), ZoomEv.pinchStart 50, ZoomEv.pinchMove 80,
       ZoomEv.step 100, ZoomEv.step (-100), ZoomEv.reset]⟩

/-- A style change never moves a card between pile, reserve and table. -/
theorem partitionIds_styleChange (st : DeckStyle) (s : AppState) :
    partitionIds (handleStyleChange st s) = partitionIds s := by
  simp only [partitionIds, handleStyleChange]
  rw [List.map_map, List.map_map, List.map_map]
  rfl

/-- A filter change only repartitions pile ∪ reserve: the id multiset over
pile, reserve and table is preserved. -/
theorem partitionIds_filterChange (t : FilterType) (s : AppState) :
    List.Perm (partitionIds (handleFilterChange t s)) (partitionIds s) := by
  unfold handleFilterChange
  dsimp only
  split
  · exact List.Perm.refl _
  · cases t with
    | all =>
      simp only [partitionIds, List.map_append, List.map_nil, List.nil_append,
        List.append_assoc]
      exact List.Perm.refl _
    | major =>
      have h :=
        (List.filter_append_perm (fun c => decide (c.arcana = ArcanaType.major))
          (s.deck ++ s.reserveCards)).map (fun c => c.id)
      simp only [List.map_append] at h
      simp only [partitionIds]
      exact h.append_right _
    | minor =>
      have h :=
        (List.filter_append_perm (fun c => decide (c.arcana = ArcanaType.minor))
          (s.deck ++ s.reserveCards)).map (fun c => c.id)
      simp only [List.map_append] at h
      simp only [partitionIds]
      exact h.append_right _

/-- The shuffle / collect-and-reshuffle button preserves the id multiset
over pile, reserve and table. -/
theorem partitionIds_shuffleReset (env : Env) (r₁ r₂ : ℕ → ℕ) (s : AppState) :
    List.Perm (partitionIds (handleShuffleAndReset env r₁ r₂ s)) (partitionIds s) := by
  unfold handleShuffleAndReset
  dsimp only
  split
  · rename_i hlen0
    have hpl : s.placedCards = [] := List.length_eq_zero.mp hlen0
    simp only [partitionIds, hpl, List.map_nil, List.append_nil]
    exact ((shuffleDeck_perm r₁ s.deck).map _).append ((shuffleDeck_perm r₂ s.reserveCards).map _)
  · have hsh :
        List.Perm
          (shuffleDeck r₁ (s.deck ++ s.reserveCards ++
            s.placedCards.map (fun p => p.toTarotCardData)))
          (s.deck ++ s.reserveCards ++ s.placedCards.map (fun p => p.toTarotCardData)) :=
      shuffleDeck_perm r₁ _
    have hshIds := hsh.map (fun c => c.id)
    simp only [List.map_append, List.map_map] at hshIds
    cases hf : s.activeFilter with
    | all =>
      simp only [partitionIds, hf]
      simp only [List.map_nil, List.append_nil]
      exact hshIds
    | major =>
      have hfil :=
        (List.filter_append_perm (fun c => decide (c.arcana = ArcanaType.major))
          (shuffleDeck r₁ (s.deck ++ s.reserveCards ++
            s.placedCards.map (fun p => p.toTarotCardData)))).map (fun c => c.id)
      simp only [List.map_append] at hfil
      simp only [partitionIds, hf]
      simp only [List.map_nil, List.append_nil]
      exact hfil.trans hshIds
    | minor =>
      have hfil :=
        (List.filter_append_perm (fun c => decide (c.arcana = ArcanaType.minor))
          (shuffleDeck r₁ (s.deck ++ s.reserveCards ++
            s.placedCards.map (fun p => p.toTarotCardData)))).map (fun c => c.id)
      simp only [List.map_append] at hfil
      simp only [partitionIds, hf]
      simp only [List.map_nil, List.append_nil]
      exact hfil.trans hshIds

/-- Starting a deck drag never moves a card. -/
theorem partitionIds_startDeck (env : Env) (now : ℚ) (p : PointerEv) (s : AppState) :
    partitionIds (handleStartDeck env now p s) = partitionIds s := by
  unfold handleStartDeck startDeckCore
  dsimp only
  repeat' split
  all_goals rfl

/-- Moving an element from the end of the third block to the head of the
first block is a permutation (the shape of a draw: the pile's front card
reappears at the end of the table list). -/
theorem perm_move_singleton (d r p : List α) (a : α) :
    List.Perm ((d ++ r) ++ (p ++ [a])) (((a :: d) ++ r) ++ p) :=
  ((List.perm_append_singleton a p).append_left (d ++ r)).trans List.perm_middle

/-- A drag-end preserves the id multiset: either nothing moves, the pile's
front card becomes a placed card, or a placed card's flip flag toggles. -/
theorem partitionIds_end (env : Env) (newId : String) (e : EndEv) (s : AppState) :
    List.Perm (partitionIds (handleEnd env newId e s)) (partitionIds s) := by
  unfold handleEnd
  cases e with
  | mouse pos =>
    dsimp only
    repeat' split
    all_goals first
      | exact List.Perm.refl _
      | (rename_i c rest heq
         have heq' : s.deck = c :: rest := heq
         unfold partitionIds
         dsimp only
         rw [List.map_append, heq']
         simp only [List.map_cons, List.map_nil]
         exact perm_move_singleton _ _ _ _)
      | (unfold partitionIds
         dsimp only
         rw [List.map_map]
         refine List.Perm.of_eq ?_
         congr 1
         exact List.map_congr_left (fun a _ => by simp only [Function.comp]; split <;> rfl))
  | touch pos remaining =>
    dsimp only
    repeat' split
    all_goals first
      | exact List.Perm.refl _
      | (rename_i c rest heq
         have heq' : s.deck = c :: rest := heq
         unfold partitionIds
         dsimp only
         rw [List.map_append, heq']
         simp only [List.map_cons, List.map_nil]
         exact perm_move_singleton _ _ _ _)
      | (unfold partitionIds
         dsimp only
         rw [List.map_map]
         refine List.Perm.of_eq ?_
         congr 1
         exact List.map_congr_left (fun a _ => by simp only [Function.comp]; split <;> rfl))

/-- Every atomic game operation preserves the id multiset over pile,
reserve and table. -/
theorem partitionIds_gameOp (env : Env) (op : GameOp) (s : AppState) :
    List.Perm (partitionIds (applyGameOp env op s)) (partitionIds s) := by
  cases op with
  | shuffleReset r₁ r₂ => exact partitionIds_shuffleReset env r₁ r₂ s
  | draw p now e newId =>
    have h₁ := partitionIds_end env newId e (handleStartDeck env now p s)
    rw [partitionIds_startDeck env now p s] at h₁
    exact h₁
  | setFilter t => exact partitionIds_filterChange t s
  | setStyle st => exact List.Perm.of_eq (partitionIds_styleChange st s)

/-- A freshly reset game distributes exactly the 78 card ids. -/
theorem partitionIds_reset (env : Env) (rand : ℕ → ℕ) (style : DeckStyle)
    (s₀ : AppState) :
    List.Perm (partitionIds (resetGame env rand style s₀)) fullIds := by
  unfold partitionIds resetGame
  dsimp only
  simp only [List.map_nil, List.append_nil]
  have h := (shuffleDeck_perm rand (createDeck style)).map (fun c => c.id)
  rw [createDeck_ids style] at h
  exact h

/-- C5: in every state reachable from a freshly reset game by any sequence
of shuffles, atomic draws, filter changes, collect-and-reshuffles and style
changes, the multiset of card ids spread over draw pile, reserve and placed
cards is exactly the 78-card set (no duplicates, no omissions), and the
pile and the reserve are disjoint. -/
theorem deck_partition_invariant (env : Env) (rand : ℕ → ℕ) (style : DeckStyle)
    (s₀ : AppState) (ops : List GameOp) :
    List.Perm (partitionIds (runGameOps env ops (resetGame env rand style s₀))) fullIds ∧
    List.Disjoint
      ((runGameOps env ops (resetGame env rand style s₀)).deck.map (fun c => c.id))
      ((runGameOps env ops (resetGame env rand style s₀)).reserveCards.map
        (fun c => c.id)) := by
  have aux : ∀ (ops' : List GameOp) (s : AppState),
      List.Perm (partitionIds s) fullIds →
      List.Perm (partitionIds (runGameOps env ops' s)) fullIds := by
    intro ops'
    induction ops' with
    | nil => intro s h; exact h
    | cons op rest ih =>
      intro s h
      exact ih (applyGameOp env op s) ((partitionIds_gameOp env op s).trans h)
  have hperm := aux ops _ (partitionIds_reset env rand style s₀)
  refine ⟨hperm, ?_⟩
  have hnd : (partitionIds (runGameOps env ops (resetGame env rand style s₀))).Nodup :=
    hperm.nodup_iff.mpr fullIds_nodup
  unfold partitionIds at hnd
  exact (List.nodup_append.mp (List.nodup_append.mp hnd).1).2.2

/-- Starting a deck drag never touches the panning or rotating flags and can
only raise the dragging flag. -/
theorem startDeck_gestures (env : Env) (now : ℚ) (p : PointerEv) (s : AppState) :
    (handleStartDeck env now p s).isPanning = s.isPanning ∧
    (handleStartDeck env now p s).isRotating = s.isRotating ∧
    ((handleStartDeck env now p s).isDragging = s.isDragging ∨
      (handleStartDeck env now p s).isDragging = true) := by
  unfold handleStartDeck startDeckCore
  dsimp only
  repeat' split
  all_goals first
    | exact ⟨rfl, rfl, Or.inl rfl⟩
    | exact ⟨rfl, rfl, Or.inr rfl⟩

/-- Starting a placed-card drag never touches the panning or rotating flags
and can only raise the dragging flag. -/
theorem startTable_gestures (now : ℚ) (p : PointerEv) (card : PlacedCard)
    (s : AppState) :
    (handleStartTableCard now p card s).isPanning = s.isPanning ∧
    (handleStartTableCard now p card s).isRotating = s.isRotating ∧
    ((handleStartTableCard now p card s).isDragging = s.isDragging ∨
      (handleStartTableCard now p card s).isDragging = true) := by
  unfold handleStartTableCard startTableCore
  dsimp only
  repeat' split
  all_goals first
    | exact ⟨rfl, rfl, Or.inl rfl⟩
    | exact ⟨rfl, rfl, Or.inr rfl⟩

/-- Starting a rotation never touches the panning or dragging flags and can
only raise the rotating flag. -/
theorem startRotate_gestures (env : Env) (a2 : ℚ → ℚ → ℚ) (now : ℚ)
    (p : PointerEv) (card : PlacedCard) (s : AppState) :
    (handleStartRotate env a2 now p card s).isPanning = s.isPanning ∧
    (handleStartRotate env a2 now p card s).isDragging = s.isDragging ∧
    ((handleStartRotate env a2 now p card s).isRotating = s.isRotating ∨
      (handleStartRotate env a2 now p card s).isRotating = true) := by
  unfold handleStartRotate rotateCore
  dsimp only
  repeat' split
  all_goals first
    | exact ⟨rfl, rfl, Or.inl rfl⟩
    | exact ⟨rfl, rfl, Or.inr rfl⟩

/-- A background press never touches the dragging or rotating flags and can
only raise the panning flag. -/
theorem startBackground_gestures (now : ℚ) (p : PointerEv) (s : AppState) :
    (handleStartBackground now p s).isDragging = s.isDragging ∧
    (handleStartBackground now p s).isRotating = s.isRotating ∧
    ((handleStartBackground now p s).isPanning = s.isPanning ∨
      (handleStartBackground now p s).isPanning = true) := by
  unfold handleStartBackground
  dsimp only
  repeat' split
  all_goals first
    | exact ⟨rfl, rfl, Or.inl rfl⟩
    | exact ⟨rfl, rfl, Or.inr rfl⟩

/-- Move events never change any gesture flag. -/
theorem move_gestures (env : Env) (a2 : ℚ → ℚ → ℚ) (m : MoveEv) (s : AppState) :
    (handleMove env a2 m s).isPanning = s.isPanning ∧
    (handleMove env a2 m s).isRotating = s.isRotating ∧
    (handleMove env a2 m s).isDragging = s.isDragging := by
  unfold handleMove moveCore
  cases m <;> (dsimp only; repeat' split)
  all_goals exact ⟨rfl, rfl, rfl⟩

/-- An end event clears panning and rotating and never raises dragging. -/
theorem end_gestures (env : Env) (newId : String) (e : EndEv) (s : AppState) :
    (handleEnd env newId e s).isPanning = false ∧
    (handleEnd env newId e s).isRotating = false ∧
    ((handleEnd env newId e s).isDragging = true → s.isDragging = true) := by
  unfold handleEnd
  cases e <;> (dsimp only; repeat' split)
  all_goals refine ⟨?_, ?_, ?_⟩ <;> simp_all

/-- A gesture count of zero means every flag is down. -/
theorem gestureCount_eq_zero (s : AppState) :
    gestureCount s = 0 ↔
      s.isPanning = false ∧ s.isDragging = false ∧ s.isRotating = false := by
  unfold gestureCount
  cases hp : s.isPanning <;> cases hd : s.isDragging <;> cases hr : s.isRotating <;> simp

/-- Bounding the gesture count when panning and rotating are down. -/
theorem gestureCount_le_one_drag (s' : AppState)
    (hp : s'.isPanning = false) (hr : s'.isRotating = false) :
    gestureCount s' ≤ 1 := by
  unfold gestureCount
  rw [hp, hr]
  cases s'.isDragging <;> simp

/-- Bounding the gesture count when panning and dragging are down. -/
theorem gestureCount_le_one_rot (s' : AppState)
    (hp : s'.isPanning = false) (hd : s'.isDragging = false) :
    gestureCount s' ≤ 1 := by
  unfold gestureCount
  rw [hp, hd]
  cases s'.isRotating <;> simp

/-- Bounding the gesture count when dragging and rotating are down. -/
theorem gestureCount_le_one_pan (s' : AppState)
    (hd : s'.isDragging = false) (hr : s'.isRotating = false) :
    gestureCount s' ≤ 1 := by
  unfold gestureCount
  rw [hd, hr]
  cases s'.isPanning <;> simp

/-- One dispatched event: a non-start event never increases the gesture
count, and any event fired from an idle state leaves at most one gesture
active. -/
theorem gstep_gestureCount (env : Env) (a2 : ℚ → ℚ → ℚ) (e : GEvent) (s : AppState) :
    (isStartEvent e = false → gestureCount (gstep env a2 e s) ≤ gestureCount s) ∧
    (gestureCount s = 0 → gestureCount (gstep env a2 e s) ≤ 1) := by
  have hstart : ∀ (t : StartTarget) (p : PointerEv) (now : ℚ),
      gestureCount s = 0 →
      gestureCount
        (match t with
         | .deckTarget => handleStartDeck env now p s
         | .cardTarget iid =>
           match findPlaced s iid with
           | some card => handleStartTableCard now p card s
           | Option.none => s
         | .rotateTarget iid =>
           match findPlaced s iid with
           | some card => handleStartRotate env a2 now p card s
           | Option.none => s
         | .backgroundTarget => handleStartBackground now p s) ≤ 1 := by
    intro t p now h0
    obtain ⟨hp0, hd0, hr0⟩ := (gestureCount_eq_zero s).mp h0
    cases t with
    | deckTarget =>
      obtain ⟨h1, h2, _⟩ := startDeck_gestures env now p s
      exact gestureCount_le_one_drag _ (by rw [h1, hp0]) (by rw [h2, hr0])
    | cardTarget iid =>
      cases hfp : findPlaced s iid with
      | some card =>
        simp only [hfp]
        obtain ⟨h1, h2, _⟩ := startTable_gestures now p card s
        exact gestureCount_le_one_drag _ (by rw [h1, hp0]) (by rw [h2, hr0])
      | none =>
        simp only [hfp]
        omega
    | rotateTarget iid =>
      cases hfp : findPlaced s iid with
      | some card =>
        simp only [hfp]
        obtain ⟨h1, h2, _⟩ := startRotate_gestures env a2 now p card s
        exact gestureCount_le_one_rot _ (by rw [h1, hp0]) (by rw [h2, hd0])
      | none =>
        simp only [hfp]
        omega
    | backgroundTarget =>
      obtain ⟨h1, h2, _⟩ := startBackground_gestures now p s
      exact gestureCount_le_one_pan _ (by rw [h1, hd0]) (by rw [h2, hr0])
  cases e with
  | mouseDown t pos b now =>
    refine ⟨fun h => by simp [isStartEvent] at h, fun h0 => hstart t (.mouse pos b) now h0⟩
  | touchStart t pos now =>
    refine ⟨fun h => by simp [isStartEvent] at h, fun h0 => hstart t (.touch pos) now h0⟩
  | touchStartPinch d =>
    refine ⟨fun _ => Nat.le_refl _, fun h0 => ?_⟩
    have : gestureCount (gstep env a2 (.touchStartPinch d) s) = gestureCount s := rfl
    omega
  | moveEv m =>
    obtain ⟨h1, h2, h3⟩ := move_gestures env a2 m s
    have heq : gestureCount (gstep env a2 (.moveEv m) s) = gestureCount s := by
      show gestureCount (handleMove env a2 m s) = gestureCount s
      unfold gestureCount
      rw [h1, h2, h3]
    refine ⟨fun _ => le_of_eq heq, fun h0 => by omega⟩
  | endEv newId ev =>
    obtain ⟨h1, h2, h3⟩ := end_gestures env newId ev s
    have hb : gestureCount (gstep env a2 (.endEv newId ev) s) ≤ gestureCount s := by
      show gestureCount (handleEnd env newId ev s) ≤ gestureCount s
      unfold gestureCount
      rw [h1, h2]
      cases hd : (handleEnd env newId ev s).isDragging with
      | false => simp
      | true =>
        rw [h3 hd]
        cases s.isPanning <;> cases s.isRotating <;> simp
    refine ⟨fun _ => hb, fun h0 => by omega⟩
  | spaceDown =>
    refine ⟨fun _ => Nat.le_refl _, fun h0 => ?_⟩
    have : gestureCount (gstep env a2 GEvent.spaceDown s) = gestureCount s := rfl
    omega
  | spaceUp =>
    have hb : gestureCount (gstep env a2 GEvent.spaceUp s) ≤ gestureCount s := by
      show gestureCount { s with isSpacePressed := false, isPanning := false }
        ≤ gestureCount s
      unfold gestureCount
      dsimp only
      cases s.isPanning <;> simp
    refine ⟨fun _ => hb, fun h0 => by omega⟩

/-- C2 (amended): along any event sequence obeying the single-pointer
discipline — every pointer-down / touch-start delivered while no gesture is
active — the state reached from a freshly mounted app has at most one of
panning, dragging and rotating active. -/
theorem gesture_exclusive_single_pointer (env : Env) (a2 : ℚ → ℚ → ℚ)
    (rand : ℕ → ℕ) (es : List GEvent)
    (h : downsOnlyWhenIdle env a2 (initApp env rand) es = true) :
    gestureCount (runEvents env a2 es (initApp env rand)) ≤ 1 := by
  have aux : ∀ (es' : List GEvent) (s : AppState), gestureCount s ≤ 1 →
      downsOnlyWhenIdle env a2 s es' = true →
      gestureCount (runEvents env a2 es' s) ≤ 1 := by
    intro es'
    induction es' with
    | nil => intro s hs _; exact hs
    | cons e rest ih =>
      intro s hs hd
      unfold downsOnlyWhenIdle at hd
      rw [Bool.and_eq_true] at hd
      obtain ⟨hguard, hrest⟩ := hd
      have hstep : gestureCount (gstep env a2 e s) ≤ 1 := by
        by_cases hse : isStartEvent e = true
        · rw [hse] at hguard
          simp only [Bool.not_true, Bool.false_or, decide_eq_true_eq] at hguard
          exact (gstep_gestureCount env a2 e s).2 hguard
        · have hle := (gstep_gestureCount env a2 e s).1 (by simpa using hse)
          omega
      exact ih (gstep env a2 e s) hstep hrest
  have hinit : gestureCount (initApp env rand) = 0 := rfl
  exact aux es (initApp env rand) (by omega) h

/-- Witness for C2 (amended): a background touch followed by its touch-end
obeys the single-pointer discipline and ends with at most one gesture
active. -/
theorem gesture_exclusive_single_pointer_witness :
    downsOnlyWhenIdle demoEnv (fun _ _ => 0) (initApp demoEnv (fun n => n))
      [GEvent.touchStart .backgroundTarget { x := 5, y := 5 } 100,
       GEvent.endEv "w" (.touch { x := 6, y := 6 } 0)] = true ∧
    gestureCount (runEvents demoEnv (fun _ _ => 0)
      [GEvent.touchStart .backgroundTarget { x := 5, y := 5 } 100,
       GEvent.endEv "w" (.touch { x := 6, y := 6 } 0)]
      (initApp demoEnv (fun n => n))) ≤ 1 :=
  ⟨by with_unfolding_all decide,
    gesture_exclusive_single_pointer demoEnv (fun _ _ => 0) (fun n => n)
      [GEvent.touchStart .backgroundTarget { x := 5, y := 5 } 100,
       GEvent.endEv "w" (.touch { x := 6, y := 6 } 0)]
      (by with_unfolding_all decide)⟩

set_option maxRecDepth 100000 in
/-- Counterexample to C2 as stated: from the freshly mounted app, a
background touch-start (finger one) makes panning active, and a deck
touch-start (finger two) then makes dragging active as well — the deck
handler has no exclusivity guard — so two gestures are simultaneously
active in a reachable state. -/
theorem gesture_overlap_cex :
    (runEvents demoEnv (fun _ _ => 0)
        [GEvent.touchStart .backgroundTarget { x := 50, y := 50 } 1000,
         GEvent.touchStart .deckTarget { x := 60, y := 60 } 1001]
        (initApp demoEnv (fun n => n))).isPanning = true ∧
    (runEvents demoEnv (fun _ _ => 0)
        [GEvent.touchStart .backgroundTarget { x := 50, y := 50 } 1000,
         GEvent.touchStart .deckTarget { x := 60, y := 60 } 1001]
        (initApp demoEnv (fun n => n))).isDragging = true := by
  exact ⟨by with_unfolding_all decide, by with_unfolding_all decide⟩

end TarotBoard
